import Mathlib

/-!
Verification of the chicago-crime ingestion core: a shallow embedding of the
schema coercion (app/services/etl.py clean_data), the fact loader
(etl.py load_data_bulk), the checkpoint resolution and orchestrators
(scripts/run_daily.py, scripts/run_backfill.py), the fact schema
(app/models.py CrimeRecord), and the dimension reconciler
(scripts/run_dimensions.py), together with theorems settling the frozen
claims about them.

Modelling conventions:
- A raw API cell is a loosely typed scalar: null (both Python None and
  pandas NaN collapse to this), a bool, a number (modelled as a rational:
  machine floats are abstracted to exact rationals, and the reduced Float32
  precision applied to coordinates is not modelled since no claim concerns
  rounding), or a string.
- A raw row is an association list from field name to scalar; a key that is
  absent from a row reads as null, mirroring what pandas DataFrame
  construction via from_records produces for a record missing a key that
  other records have.
- Timestamps are modelled as a count of seconds on the proleptic Gregorian
  calendar, so that the one-second increment applied by the daily job
  (timedelta(seconds=1)) is literally plus one. Sub-second precision is
  dropped (the spec relies on second granularity).
- Fallible pandas casts are modelled as Except String; coercions that the
  source applies with errors equal to coerce are total into Option.
-/

/-- A loosely typed scalar cell of a raw API row. Python None and pandas NaN
are both modelled as null. -/
inductive Raw where
  | null
  | bool (b : Bool)
  | num (q : Rat)
  | str (s : String)
deriving Repr, DecidableEq

/-- A raw row: a mapping from field name (in the casing the source sent) to a
loosely typed scalar. -/
abbrev RawRow := List (String × Raw)

-- Field-name and literal constants used by the embedding.

def kId : String := "id"
def kCaseNumber : String := "case_number"
def kDate : String := "date"
def kUpdatedOn : String := "updated_on"
def kBlock : String := "block"
def kIucr : String := "iucr"
def kPrimaryType : String := "primary_type"
def kDescription : String := "description"
def kLocationDescription : String := "location_description"
def kArrest : String := "arrest"
def kDomestic : String := "domestic"
def kBeat : String := "beat"
def kDistrict : String := "district"
def kWard : String := "ward"
def kCommunityArea : String := "community_area"
def kFbiCode : String := "fbi_code"
def kXCoordinate : String := "x_coordinate"
def kYCoordinate : String := "y_coordinate"
def kLatitude : String := "latitude"
def kLongitude : String := "longitude"
def kYear : String := "year"

/-- Error text of a pandas astype to the nullable boolean dtype applied to a
value that is not bool-like. -/
def boolCastErrorMsg : String := "Need to pass bool-like values"

/-- Error text of a pandas astype to a nullable integer dtype applied to a
non-integral or out-of-range numeric value. -/
def intCastErrorMsg : String := "cannot safely cast non-equivalent values"

/-- Python str() of a scalar, as used by astype(str) on an object column.
The repr of a non-integral rational abstracts the float repr; it is never
load-bearing in any claim. pandas renders a missing cell as nan and an
explicit None as None; both are distinct from the lowercase literal true,
which is the only distinction any claim depends on, so both nullish forms
collapse to one rendering here. -/
def pyStr (v : Raw) : String :=
  match v with
  | Raw.null => "None"
  | Raw.bool b => if b then "True" else "False"
  | Raw.num q => toString q
  | Raw.str s => s

/-- Python str.lower, character by character (all strings this system
handles are ASCII field names and cell text). -/
def toLowerStr (s : String) : String :=
  String.mk (s.data.map Char.toLower)

/-- Read a field from a raw row; a missing key reads as null (the NaN cell a
pandas DataFrame holds for a record lacking a key present in other records).
A batch whose rows all lack a given key entirely is not distinguished; the
source would raise KeyError there, a case no claim exercises. -/
def lookupField (row : RawRow) (k : String) : Raw :=
  match row.find? (fun p => p.1 == k) with
  | some p => p.2
  | none => Raw.null

/-- Parse a nonempty all-digit character list into a natural number. -/
def parseDigits (cs : List Char) : Option Nat :=
  if cs.isEmpty then none
  else if cs.all Char.isDigit then
    some (cs.foldl (fun a c => a * 10 + (c.toNat - 48)) 0)
  else none

/-- Split a character list on a separator character. -/
def splitOnChar (cs : List Char) (sep : Char) : List (List Char) :=
  match cs with
  | [] => [[]]
  | c :: rest =>
    let r := splitOnChar rest sep
    if c = sep then [] :: r
    else
      match r with
      | [] => [[c]]
      | g :: gs => (c :: g) :: gs

def isLeapYear (y : Nat) : Bool :=
  (y % 4 == 0 && y % 100 != 0) || (y % 400 == 0)

def daysInMonth (y m : Nat) : Nat :=
  if m == 2 then (if isLeapYear y then 29 else 28)
  else if m == 4 || m == 6 || m == 9 || m == 11 then 30
  else 31

def daysBeforeMonth (y m : Nat) : Nat :=
  (List.range (m - 1)).foldl (fun a i => a + daysInMonth y (i + 1)) 0

def daysBeforeYear (y : Nat) : Nat :=
  let p := y - 1
  365 * p + p / 4 - p / 100 + p / 400

/-- Seconds since the proleptic Gregorian origin for a calendar datetime. -/
def encodeTimestamp (y mo d h mi s : Nat) : Nat :=
  (((daysBeforeYear y + daysBeforeMonth y mo + (d - 1)) * 24 + h) * 60 + mi) * 60 + s

/-- Validate calendar ranges and encode. -/
def mkTimestamp (y mo d h mi s : Nat) : Option Nat :=
  if 1 ≤ y ∧ 1 ≤ mo ∧ mo ≤ 12 ∧ 1 ≤ d ∧ d ≤ daysInMonth y mo ∧
     h < 24 ∧ mi < 60 ∧ s < 60 then
    some (encodeTimestamp y mo d h mi s)
  else none

/-- Parse the canonical Socrata floating-timestamp text format
YYYY-MM-DDTHH:MM:SS with an optional fractional-second suffix, or a bare
date YYYY-MM-DD (midnight). Anything else is unparseable. pandas
to_datetime accepts further formats that this API never emits; those are
out of scope and treated as unparseable. -/
def parseTimestamp (str : String) : Option Nat :=
  let cs := str.data
  let dateCs := cs.takeWhile (fun c => c ≠ 'T')
  let restCs := cs.dropWhile (fun c => c ≠ 'T')
  match splitOnChar dateCs '-' with
  | [ys, ms, ds] =>
    match parseDigits ys, parseDigits ms, parseDigits ds with
    | some y, some mo, some d =>
      match restCs with
      | [] => mkTimestamp y mo d 0 0 0
      | _ :: timeCs =>
        let hms := timeCs.takeWhile (fun c => c ≠ '.')
        let frac := timeCs.dropWhile (fun c => c ≠ '.')
        let fracOk :=
          match frac with
          | [] => true
          | _ :: f => !f.isEmpty && f.all Char.isDigit
        if fracOk then
          match splitOnChar hms ':' with
          | [hs, mis, ss] =>
            match parseDigits hs, parseDigits mis, parseDigits ss with
            | some h, some mi, some s => mkTimestamp y mo d h mi s
            | _, _, _ => none
          | _ => none
        else none
    | _, _, _ => none
  | _ => none

/-- Parse decimal numeric text (optional sign, digits, optional fractional
part) into a rational, as pandas to_numeric parses a string cell.
Scientific notation and infinities are not produced by this source and are
treated as unparseable. -/
def parseDecimal (str : String) : Option Rat :=
  match str.data with
  | [] => none
  | c0 :: rest0 =>
    let (neg, body) :=
      if c0 = '-' then (true, rest0)
      else if c0 = '+' then (false, rest0)
      else (false, c0 :: rest0)
    let intPart := body.takeWhile (fun c => c ≠ '.')
    let dotPart := body.dropWhile (fun c => c ≠ '.')
    let fracPart := match dotPart with | [] => ([] : List Char) | _ :: f => f
    let wellFormed :=
      intPart.all Char.isDigit && fracPart.all Char.isDigit &&
      (!intPart.isEmpty || !fracPart.isEmpty) &&
      (dotPart.isEmpty || (dotPart.length ≥ 1 && !(fracPart.any (fun c => c = '.'))))
    if wellFormed then
      let iv : Nat := intPart.foldl (fun a c => a * 10 + (c.toNat - 48)) 0
      let fv : Nat := fracPart.foldl (fun a c => a * 10 + (c.toNat - 48)) 0
      let den : Nat := Nat.pow 10 fracPart.length
      let q : Rat := mkRat (Int.ofNat (iv * den + fv)) den
      some (if neg then -q else q)
    else none

/-- A coerced fact record, the in-memory shape a cleaned row has just before
the bulk insert (etl.py clean_data output; field set of models.py
CrimeRecord). Every field is optional here because coercion degrades to
null; the database schema below records which columns then reject null. -/
structure CrimeRecord where
  id : Option Int
  case_number : Option String
  date : Option Nat
  updated_on : Option Nat
  block : Option String
  iucr : Option String
  primary_type : Option String
  description : Option String
  location_description : Option String
  arrest : Option Bool
  domestic : Option Bool
  beat : Option String
  district : Option String
  ward : Option Int
  community_area : Option String
  fbi_code : Option String
  x_coordinate : Option Rat
  y_coordinate : Option Rat
  latitude : Option Rat
  longitude : Option Rat
  year : Option Int
deriving Repr, DecidableEq

/-- pandas to_datetime with errors set to coerce: unparseable or missing
becomes null. A numeric or boolean cell is never emitted by this source in
a timestamp field and is treated as unparseable. -/
def to_datetime (v : Raw) : Option Nat :=
  match v with
  | Raw.str s => parseTimestamp s
  | _ => none

/-- pandas to_numeric with errors set to coerce: unparseable or missing
becomes null. -/
def to_numeric (v : Raw) : Option Rat :=
  match v with
  | Raw.null => none
  | Raw.bool b => some (if b then mkRat 1 1 else mkRat 0 1)
  | Raw.num q => some q
  | Raw.str s => parseDecimal s

/-- pandas astype to the nullable boolean dtype: null passes through as
null, a bool passes through, and any other cell raises (it does not coerce
to null). -/
def astype_boolean (v : Raw) : Except String (Option Bool) :=
  match v with
  | Raw.null => Except.ok none
  | Raw.bool b => Except.ok (some b)
  | _ => Except.error boolCastErrorMsg

/-- pandas astype to a nullable fixed-width integer dtype applied to the
result of to_numeric: null passes through, an in-range integral value is
cast, and a non-integral or out-of-range value raises (the cast is a safe
cast, not a truncation). -/
def astype_int (lo hi : Int) (v : Option Rat) : Except String (Option Int) :=
  match v with
  | none => Except.ok none
  | some q =>
    if q.den = 1 ∧ lo ≤ q.num ∧ q.num ≤ hi then Except.ok (some q.num)
    else Except.error intCastErrorMsg

/-- pandas astype to the string dtype: null passes through as null, other
scalars render as text. -/
def astype_string (v : Raw) : Option String :=
  match v with
  | Raw.null => none
  | w => some (pyStr w)

def int16Lo : Int := -32768
def int16Hi : Int := 32767
def int64Lo : Int := -9223372036854775808
def int64Hi : Int := 9223372036854775807

/-- Read a field after the rename(columns=str.lower) step of clean_data:
field names are lower-cased first, then the cell is read. -/
def lookupLower (row : RawRow) (k : String) : Raw :=
  lookupField (row.map (fun p => (toLowerStr p.1, p.2))) k

/-- etl.py clean_data applied to one row. Mirrors the assign pipeline:
rename columns to lower case, then coerce datetimes, coordinates,
administrative integers, the identifier, the two boolean flags, and the
listed string columns. The fallible casts run in the column order of the
source assign call, so the first failing cast determines the error. -/
def clean_row (row : RawRow) : Except String CrimeRecord := do
  let date := to_datetime (lookupLower row kDate)
  let updated_on := to_datetime (lookupLower row kUpdatedOn)
  let latitude := to_numeric (lookupLower row kLatitude)
  let longitude := to_numeric (lookupLower row kLongitude)
  let x_coordinate := to_numeric (lookupLower row kXCoordinate)
  let y_coordinate := to_numeric (lookupLower row kYCoordinate)
  let year ← astype_int int16Lo int16Hi (to_numeric (lookupLower row kYear))
  let ward ← astype_int int16Lo int16Hi (to_numeric (lookupLower row kWard))
  let id ← astype_int int64Lo int64Hi (to_numeric (lookupLower row kId))
  let arrest ← astype_boolean (lookupLower row kArrest)
  let domestic ← astype_boolean (lookupLower row kDomestic)
  Except.ok
    { id := id
      case_number := astype_string (lookupLower row kCaseNumber)
      date := date
      updated_on := updated_on
      block := astype_string (lookupLower row kBlock)
      iucr := astype_string (lookupLower row kIucr)
      primary_type := astype_string (lookupLower row kPrimaryType)
      description := astype_string (lookupLower row kDescription)
      location_description := astype_string (lookupLower row kLocationDescription)
      arrest := arrest
      domestic := domestic
      beat := astype_string (lookupLower row kBeat)
      district := astype_string (lookupLower row kDistrict)
      ward := ward
      community_area := astype_string (lookupLower row kCommunityArea)
      fbi_code := astype_string (lookupLower row kFbiCode)
      x_coordinate := x_coordinate
      y_coordinate := y_coordinate
      latitude := latitude
      longitude := longitude
      year := year }

/-- etl.py clean_data over a batch: every row is coerced; no row is
dropped; the first failing cast aborts the whole call (a pandas cast
failure on any cell raises out of clean_data). -/
def clean_data (rows : List RawRow) : Except String (List CrimeRecord) :=
  rows.mapM clean_row

/-- One column of the persisted crime_records schema as declared in
app/models.py: its name, whether it is the primary key, and whether it
admits SQL NULL. Under SQLAlchemy 2.0 declarative typing, a Mapped
annotation without Optional is NOT NULL and one with Optional is nullable;
a primary key is always NOT NULL. -/
structure ColumnSpec where
  name : String
  isPrimaryKey : Bool
  nullable : Bool
deriving Repr, DecidableEq

/-- The crime_records table schema, column by column from models.py:
id is Mapped Int with primary_key and autoincrement off; case_number is
Mapped String (no Optional); date is Mapped datetime (no Optional);
arrest and domestic are Mapped bool (no Optional, server-free default
False applies only when the attribute is absent, not to an explicit null);
every remaining column carries Optional. -/
def crime_records_columns : List ColumnSpec :=
  [ ⟨kId, true, false⟩
  , ⟨kCaseNumber, false, false⟩
  , ⟨kDate, false, false⟩
  , ⟨kUpdatedOn, false, true⟩
  , ⟨kBlock, false, true⟩
  , ⟨kIucr, false, true⟩
  , ⟨kPrimaryType, false, true⟩
  , ⟨kDescription, false, true⟩
  , ⟨kLocationDescription, false, true⟩
  , ⟨kArrest, false, false⟩
  , ⟨kDomestic, false, false⟩
  , ⟨kBeat, false, true⟩
  , ⟨kDistrict, false, true⟩
  , ⟨kWard, false, true⟩
  , ⟨kCommunityArea, false, true⟩
  , ⟨kFbiCode, false, true⟩
  , ⟨kXCoordinate, false, true⟩
  , ⟨kYCoordinate, false, true⟩
  , ⟨kLatitude, false, true⟩
  , ⟨kLongitude, false, true⟩
  , ⟨kYear, false, true⟩ ]

/-- Whether one record may be inserted given the rows already in the table:
the NOT NULL columns of the schema must be present and the primary key must
not collide with any stored row (models.py constraints as enforced by the
database during the bulk insert). -/
def rowOk (stored : List CrimeRecord) (r : CrimeRecord) : Bool :=
  r.id.isSome && r.case_number.isSome && r.date.isSome &&
  r.arrest.isSome && r.domestic.isSome &&
  !(stored.any (fun e => e.id == r.id))

/-- Insert the batch row by row against the growing table; the first
constraint violation aborts with an integrity error (the database checks
each row of the multi-row insert and raises on the first violation). -/
def insertRows (stored : List CrimeRecord) :
    List CrimeRecord → Except String (List CrimeRecord)
  | [] => Except.ok stored
  | r :: rs =>
    if rowOk stored r then insertRows (stored ++ [r]) rs
    else Except.error intCastErrorMsg

/-- etl.py load_data_bulk: an empty batch is a no-op that neither writes
nor raises; otherwise all rows are inserted in one transaction and any
constraint violation rolls the whole batch back, leaving the table as it
was, and re-raises (returned here as the some error component). -/
def load_data_bulk (stored : List CrimeRecord) (batch : List CrimeRecord) :
    List CrimeRecord × Option String :=
  if batch.isEmpty then (stored, none)
  else
    match insertRows stored batch with
    | Except.ok stored2 => (stored2, none)
    | Except.error e => (stored, some e)

/-- One call the orchestrator makes to the remote fetch collaborator: the
inclusive start bound passed into the SoQL where filter and the row cap. -/
structure FetchCall where
  start : Nat
  limit : Nat
deriving Repr, DecidableEq

/-- The typed failures an orchestrator run can end with. -/
inductive JobError where
  /-- run_daily ValueError: incremental job against an empty table. -/
  | configurationError
  /-- run_backfill RuntimeError: backfill against a non-empty table. -/
  | conflictError
  /-- run_backfill referencing clean_df after its assignment was skipped by
  the swallowed cleaning exception (Python UnboundLocalError). -/
  | unboundLocalError
  /-- a cleaning failure re-raised by run_daily. -/
  | cleanError (msg : String)
  /-- a loader constraint violation re-raised after rollback. -/
  | loadError (msg : String)
deriving Repr, DecidableEq

/-- Outcome of one orchestrator run: the table after the run, the error the
process re-raised if any, and the fetch calls it issued. -/
structure RunResult where
  db : List CrimeRecord
  err : Option JobError
  fetchCalls : List FetchCall
deriving Repr, DecidableEq

/-- The remote dataset as the portal stores it: rows keyed by the timestamp
their date field holds, in the ascending order the portal serves (the query
always orders by date ascending). -/
abbrev Remote := List (Nat × RawRow)

/-- The pairs selected by api_client.py fetch_crime_data: the SoQL filter
keeps rows whose date is at or after the start bound (date >= start,
closed-inclusive) and the row cap applies to the filtered query. -/
def fetchWindow (remote : Remote) (start limit : Nat) : Remote :=
  (remote.filter (fun p => decide (start ≤ p.1))).take limit

/-- api_client.py fetch_crime_data: the raw rows of the fetch window. -/
def fetch_crime_data (remote : Remote) (start limit : Nat) : List RawRow :=
  (fetchWindow remote start limit).map (fun p => p.2)

def dailyLimit : Nat := 500000
def backfillLimit : Nat := 2000000

/-- run_daily.py get_last_crime_date: SELECT max(date); SQL max ignores
nulls and an empty table yields null. -/
def get_last_crime_date (stored : List CrimeRecord) : Option Nat :=
  (stored.filterMap (fun r => r.date)).max?

/-- run_daily.py main: resolve the checkpoint (failing fast on an empty
table), fetch from checkpoint plus one second, coerce, and load unless the
fetched or cleaned batch is empty. Every collaborator failure is logged and
re-raised. -/
def run_daily (stored : List CrimeRecord) (remote : Remote) : RunResult :=
  match get_last_crime_date stored with
  | none => ⟨stored, some JobError.configurationError, []⟩
  | some t =>
    let start := t + 1
    let calls := [⟨start, dailyLimit⟩]
    let raw := fetch_crime_data remote start dailyLimit
    if raw.isEmpty then ⟨stored, none, calls⟩
    else
      match clean_data raw with
      | Except.error m => ⟨stored, some (JobError.cleanError m), calls⟩
      | Except.ok cleaned =>
        if cleaned.isEmpty then ⟨stored, none, calls⟩
        else
          match load_data_bulk stored cleaned with
          | (db2, none) => ⟨db2, none, calls⟩
          | (db2, some m) => ⟨db2, some (JobError.loadError m), calls⟩

/-- run_backfill.py is_database_empty: count of rows is zero. -/
def is_database_empty (stored : List CrimeRecord) : Bool :=
  stored.length == 0

/-- The fixed historical start boundary of run_backfill.py:
datetime(2001, 1, 1). -/
def backfillStart : Nat := encodeTimestamp 2001 1 1 0 0 0

/-- run_backfill.py main: abort with a conflict unless the table is empty,
else fetch from the fixed historical start and coerce and load. The
cleaning step is wrapped in a try block whose except clause only logs: a
cleaning failure is swallowed and the next statement then reads the never
assigned clean_df local, so the run dies with UnboundLocalError instead of
the cleaning error (modelled faithfully; schema bootstrap init_db is out of
scope). -/
def run_backfill (stored : List CrimeRecord) (remote : Remote) : RunResult :=
  if !(is_database_empty stored) then ⟨stored, some JobError.conflictError, []⟩
  else
    let calls := [⟨backfillStart, backfillLimit⟩]
    let raw := fetch_crime_data remote backfillStart backfillLimit
    if raw.isEmpty then ⟨stored, none, calls⟩
    else
      match clean_data raw with
      | Except.error _ => ⟨stored, some JobError.unboundLocalError, calls⟩
      | Except.ok cleaned =>
        if cleaned.isEmpty then ⟨stored, none, calls⟩
        else
          match load_data_bulk stored cleaned with
          | (db2, none) => ⟨db2, none, calls⟩
          | (db2, some m) => ⟨db2, some (JobError.loadError m), calls⟩

-- Dimension reconciliation (scripts/run_dimensions.py).

abbrev DimRow := List (String × Raw)

/-- Committed state of the dimension tables, keyed by table name. -/
abbrev DimDB := String → List DimRow

def kAreaNum1 : String := "area_num_1"
def kCommunity : String := "community"
def kName : String := "name"
def kIucrKey : String := "iucr"
def kPrimaryDescriptionApi : String := "primary_description"
def kPrimaryDesc : String := "primary_desc"
def kSecondaryDescriptionApi : String := "secondary_description"
def kSecondaryDesc : String := "secondary_desc"
def kIndexCode : String := "index_code"
def kActive : String := "active"
def kIsActive : String := "is_active"
def kWardKey : String := "ward"
def kBeatNum : String := "beat_num"
def kDistrictKey : String := "district"
def kSector : String := "sector"
def kBeatKey : String := "beat"
def kDistNum : String := "dist_num"
def kDistLabel : String := "dist_label"

def dsCommunityAreas : String := "igwz-8jzy"
def dsIucr : String := "c7ck-438e"
def dsWards : String := "k9yb-bpqx"
def dsBeats : String := "n9it-hstw"
def dsDistricts : String := "24zt-jpfn"

def tnDistricts : String := "dim_districts"
def tnBeats : String := "dim_beats"
def tnCommunityAreas : String := "dim_community_areas"
def tnIucr : String := "dim_iucr"
def tnWards : String := "dim_wards"

def trueLiteral : String := "true"

/-- One entry of run_dimensions.py DIMENSION_CONFIG: the model mapped to
its dataset id and column rename table, plus the data read off the model
class (its table name and the first column of its primary key, as the
script reads them reflectively). -/
structure DimConfig where
  tableName : String
  datasetId : String
  colMapping : List (String × String)
  pk : String
deriving Repr, DecidableEq

/-- Modelled from the spec: the dimension model classes CommunityArea,
IUCR, Ward, Beat and District are imported from app.models but absent from
the source tree; the spec describes each as a small reference entity whose
primary key is its code column. The table names dim_districts and
dim_beats and the primary keys beat_num and dist_num appear literally in
run_dimensions.py; the rename tables map the remaining code columns onto
id, so id is taken as their primary key, and the remaining table names
follow the dim_ pattern of the two that are in the source. -/
def communityAreaConfig : DimConfig :=
  ⟨tnCommunityAreas, dsCommunityAreas,
    [(kAreaNum1, kId), (kCommunity, kName)], kId⟩

def iucrConfig : DimConfig :=
  ⟨tnIucr, dsIucr,
    [(kIucrKey, kId), (kPrimaryDescriptionApi, kPrimaryDesc),
     (kSecondaryDescriptionApi, kSecondaryDesc), (kIndexCode, kIndexCode),
     (kActive, kIsActive)], kId⟩

def wardConfig : DimConfig :=
  ⟨tnWards, dsWards, [(kWardKey, kId)], kId⟩

def beatConfig : DimConfig :=
  ⟨tnBeats, dsBeats,
    [(kBeatNum, kBeatNum), (kDistrictKey, kDistrictKey),
     (kSector, kSector), (kBeatKey, kBeatKey)], kBeatNum⟩

def districtConfig : DimConfig :=
  ⟨tnDistricts, dsDistricts,
    [(kDistNum, kDistNum), (kDistLabel, kDistLabel)], kDistNum⟩

def DIMENSION_CONFIG : List DimConfig :=
  [communityAreaConfig, iucrConfig, wardConfig, beatConfig, districtConfig]

/-- df.rename(columns=mapping): a key named in the rename table takes its
target name, every other key keeps its own. -/
def renameColumns (mapping : List (String × String)) (row : DimRow) : DimRow :=
  row.map (fun p =>
    match mapping.find? (fun q => q.1 == p.1) with
    | some q => (q.2, p.2)
    | none => p)

/-- Keep exactly the target columns, synthesizing null for a target column
the fetched row does not carry (the df[col] = None fill followed by the
df[target_cols] projection). -/
def projectColumns (targets : List String) (row : DimRow) : DimRow :=
  targets.map (fun c => (c, lookupField row c))

/-- df.drop_duplicates(subset=[pk], keep=first), as a scan that keeps a row
when its primary key value has not been seen yet. -/
def dedupByKeyAux (pk : String) (seen : List Raw) : List DimRow → List DimRow
  | [] => []
  | r :: rs =>
    let k := lookupField r pk
    if k ∈ seen then dedupByKeyAux pk seen rs
    else r :: dedupByKeyAux pk (k :: seen) rs

/-- df.drop_duplicates(subset=[pk], keep=first): among rows sharing a
primary key value the first in fetch order survives, all later ones are
dropped. -/
def dedupByKey (pk : String) (rows : List DimRow) : List DimRow :=
  dedupByKeyAux pk [] rows

/-- str.split on a dot, first piece: the characters before the first
dot. -/
def splitDotHead (s : String) : String :=
  String.mk (s.data.takeWhile (fun c => c ≠ '.'))

def padZeros (w : Nat) (cs : List Char) : List Char :=
  List.replicate (w - cs.length) '0' ++ cs

/-- Python str.zfill(w): left-pad with zeros to total width w, keeping a
leading sign in front of the padding. -/
def zfill (w : Nat) (s : String) : String :=
  match s.data with
  | [] => String.mk (padZeros w [])
  | c :: rest =>
    if c = '-' ∨ c = '+' then String.mk (c :: padZeros (w - 1) rest)
    else String.mk (padZeros w (c :: rest))

/-- District key normalization (run_dimensions.py, dim_districts branch):
astype(str), strip any trailing fractional notation, zero-pad to width
three. -/
def normalizeDistrictCode (v : Raw) : Raw :=
  Raw.str (zfill 3 (splitDotHead (pyStr v)))

/-- Beat key normalization (dim_beats branch): astype(str) and strip any
trailing fractional notation, without padding. -/
def normalizeBeatCode (v : Raw) : Raw :=
  Raw.str (splitDotHead (pyStr v))

def normalizeDistrictRow (row : DimRow) : DimRow :=
  row.map (fun p => if p.1 = kDistNum then (p.1, normalizeDistrictCode p.2) else p)

def normalizeBeatRow (row : DimRow) : DimRow :=
  row.map (fun p => if p.1 = kBeatNum then (p.1, normalizeBeatCode p.2) else p)

/-- The two table-specific key normalizations; every other table passes
through unchanged. -/
def applyNormalization (tableName : String) (rows : List DimRow) : List DimRow :=
  if tableName = tnDistricts then rows.map normalizeDistrictRow
  else if tableName = tnBeats then rows.map normalizeBeatRow
  else rows

/-- The boolean-like coercion of run_dimensions.py: the cell is rendered as
text via astype(str), lower-cased, and compared to the literal true; the
result is always a genuine boolean, never null. -/
def coerceIsActive (v : Raw) : Raw :=
  Raw.bool (toLowerStr (pyStr v) == trueLiteral)

def coerceIsActiveRow (row : DimRow) : DimRow :=
  row.map (fun p => if p.1 = kIsActive then (p.1, coerceIsActive p.2) else p)

/-- The is_active handling runs whenever the projected column set contains
is_active (if is_active in df.columns). -/
def applyIsActive (targets : List String) (rows : List DimRow) : List DimRow :=
  if targets.contains kIsActive then rows.map coerceIsActiveRow else rows

/-- The per-table transformation pipeline of fetch_and_load_dimension, in
source order: rename, project onto the target columns with null fill,
deduplicate by primary key keeping the first occurrence, table-specific key
normalization, the NaN to None conversion (the identity here, both being
null), then the is_active boolean coercion. -/
def transformDimension (cfg : DimConfig) (fetched : List DimRow) : List DimRow :=
  let targets := cfg.colMapping.map (fun p => p.2)
  let rows := fetched.map (renameColumns cfg.colMapping)
  let rows := rows.map (projectColumns targets)
  let rows := dedupByKey cfg.pk rows
  let rows := applyNormalization cfg.tableName rows
  applyIsActive targets rows

def setTable (db : DimDB) (t : String) (rows : List DimRow) : DimDB :=
  fun u => if u = t then rows else db u

/-- fetch_and_load_dimension acting on the pending (uncommitted) session
state: an empty fetch returns early leaving the table untouched; otherwise
the table rows are deleted and the transformed set inserted, all still
uncommitted. -/
def fetch_and_load_dimension (pending : DimDB) (cfg : DimConfig)
    (fetched : List DimRow) : DimDB :=
  if fetched.isEmpty then pending
  else setTable pending cfg.tableName (transformDimension cfg fetched)

/-- The loop body of run_dimensions.py main inside the one session: each
configured table is fetched and replaced in the pending state; the first
failure (injected here at the per-table fetch, the step whose exceptions
the per-table handler re-raises) rolls the session back to the committed
state; reaching the end of the loop commits the pending state. -/
def goTables (committed pending : DimDB)
    (fetch : String → Except String (List DimRow)) :
    List DimConfig → DimDB × Option String
  | [] => (pending, none)
  | cfg :: rest =>
    match fetch cfg.datasetId with
    | Except.error e => (committed, some e)
    | Except.ok fetched =>
      goTables committed (fetch_and_load_dimension pending cfg fetched) fetch rest

/-- run_dimensions.py main: one session over the whole run, committed once
after every configured table succeeded, rolled back entirely on any
table's failure. -/
def run_dimensions (db : DimDB)
    (fetch : String → Except String (List DimRow)) : DimDB × Option String :=
  goTables db db fetch DIMENSION_CONFIG

-- Claim theorems.

/-- C1: Daily/incremental checkpoint resolution. If the fact table has rows
with maximum stored timestamp T, run_daily computes T plus one second and
uses it as the inclusive lower bound of the fetch window (the remote filter
keeps exactly the rows at or after the bound); if the table is empty it
fails fast with the configuration error and issues no fetch. -/
theorem daily_checkpoint_resolution (stored : List CrimeRecord) (remote : Remote) :
    (stored = [] → get_last_crime_date stored = none) ∧
    (get_last_crime_date stored = none →
      run_daily stored remote = ⟨stored, some JobError.configurationError, []⟩) ∧
    (∀ T, get_last_crime_date stored = some T →
      (run_daily stored remote).fetchCalls = [⟨T + 1, dailyLimit⟩] ∧
      (∀ p ∈ fetchWindow remote (T + 1) dailyLimit, T + 1 ≤ p.1) ∧
      (remote.length ≤ dailyLimit →
        fetchWindow remote (T + 1) dailyLimit
          = remote.filter (fun p => decide (T + 1 ≤ p.1)))) := by
  refine ⟨?_, ?_, ?_⟩
  · intro h; subst h; rfl
  · intro h; simp [run_daily, h]
  · intro T h
    refine ⟨?_, ?_, ?_⟩
    · simp only [run_daily, h]
      repeat' split <;> try rfl
    · intro p hp
      have hf : p ∈ remote.filter (fun p => decide (T + 1 ≤ p.1)) :=
        List.take_subset _ _ hp
      exact of_decide_eq_true (List.mem_filter.mp hf).2
    · intro hlen
      exact List.take_of_length_le (le_trans (List.length_filter_le _ _) hlen)

def caseEx : String := "JE100001"

/-- A stored record with timestamp 100, used to instantiate hypotheses. -/
def recEx : CrimeRecord :=
  { id := some 1, case_number := some caseEx, date := some 100,
    updated_on := none, block := none, iucr := none, primary_type := none,
    description := none, location_description := none,
    arrest := some false, domestic := some false, beat := none,
    district := none, ward := none, community_area := none,
    fbi_code := none, x_coordinate := none, y_coordinate := none,
    latitude := none, longitude := none, year := none }

def remoteEx : Remote := [(101, [(kDate, Raw.str caseEx)]), (50, [])]

theorem daily_checkpoint_resolution_witness :
    run_daily [] remoteEx = ⟨[], some JobError.configurationError, []⟩ ∧
    (run_daily [recEx] remoteEx).fetchCalls = [⟨100 + 1, dailyLimit⟩] :=
  ⟨(daily_checkpoint_resolution [] remoteEx).2.1 rfl,
   ((daily_checkpoint_resolution [recEx] remoteEx).2.2 100 rfl).1⟩

/-- C3: Backfill precondition. On a non-empty fact table run_backfill
aborts with the conflict error, touching neither the table nor the remote;
on an empty table it fetches exactly once with the fixed historical start
boundary, January 1 2001, as the inclusive lower bound of the window. -/
theorem backfill_precondition (stored : List CrimeRecord) (remote : Remote) :
    (stored ≠ [] → run_backfill stored remote = ⟨stored, some JobError.conflictError, []⟩) ∧
    (stored = [] →
      (run_backfill stored remote).fetchCalls = [⟨backfillStart, backfillLimit⟩] ∧
      backfillStart = encodeTimestamp 2001 1 1 0 0 0 ∧
      (∀ p ∈ fetchWindow remote backfillStart backfillLimit, backfillStart ≤ p.1)) := by
  constructor
  · intro h
    match stored with
    | [] => exact absurd rfl h
    | r :: rest => simp [run_backfill, is_database_empty]
  · intro h
    subst h
    refine ⟨?_, rfl, ?_⟩
    · simp only [run_backfill, is_database_empty, List.length_nil,
        beq_self_eq_true, Bool.not_true, Bool.false_eq_true, if_false]
      repeat' split <;> try rfl
    · intro p hp
      have hf : p ∈ remote.filter (fun p => decide (backfillStart ≤ p.1)) :=
        List.take_subset _ _ hp
      exact of_decide_eq_true (List.mem_filter.mp hf).2

theorem backfill_precondition_witness :
    run_backfill [recEx] remoteEx = ⟨[recEx], some JobError.conflictError, []⟩ ∧
    (run_backfill [] remoteEx).fetchCalls = [⟨backfillStart, backfillLimit⟩] :=
  ⟨(backfill_precondition [recEx] remoteEx).1 (List.cons_ne_nil _ _),
   ((backfill_precondition [] remoteEx).2 rfl).1⟩

/-- A batch containing a row whose identifier collides with a stored row
makes the row-by-row insert fail, whatever came before it in the batch. -/
lemma insertRows_error_of_dup :
    ∀ (batch stored : List CrimeRecord),
      (∃ r ∈ batch, ∃ e ∈ stored, ∃ v, r.id = some v ∧ e.id = some v) →
      ∃ m, insertRows stored batch = Except.error m := by
  intro batch
  induction batch with
  | nil =>
    intro stored h
    rcases h with ⟨r, hr, _⟩
    exact absurd hr (List.not_mem_nil r)
  | cons b bs ih =>
    intro stored h
    by_cases hok : rowOk stored b = true
    · rcases h with ⟨r, hr, e, he, v, hrv, hev⟩
      have hrbs : r ∈ bs := by
        rcases List.mem_cons.mp hr with h1 | h1
        · exfalso
          subst h1
          have hany : stored.any (fun x => x.id == r.id) = true :=
            List.any_eq_true.mpr ⟨e, he, by simp [hev, hrv]⟩
          simp [rowOk, hany] at hok
        · exact h1
      have hrec : ∃ m, insertRows (stored ++ [b]) bs = Except.error m :=
        ih (stored ++ [b]) ⟨r, hrbs, e, List.mem_append_left _ he, v, hrv, hev⟩
      simpa [insertRows, hok] using hrec
    · refine ⟨intCastErrorMsg, ?_⟩
      simp [insertRows, hok]

/-- C2: Fact Loader atomicity. An empty batch is a no-op that neither
writes nor raises; a non-empty batch holding a record whose identifier
duplicates a stored record commits zero new rows (the table after the call
is exactly the table before) and the call re-raises the violation. -/
theorem fact_loader_atomicity (stored batch : List CrimeRecord) :
    load_data_bulk stored [] = (stored, none) ∧
    ((∃ r ∈ batch, ∃ e ∈ stored, ∃ v, r.id = some v ∧ e.id = some v) →
      (load_data_bulk stored batch).1 = stored ∧
      ((load_data_bulk stored batch).2).isSome = true) := by
  constructor
  · rfl
  · intro h
    obtain ⟨m, hm⟩ := insertRows_error_of_dup batch stored h
    have hne : batch.isEmpty = false := by
      rcases h with ⟨r, hr, _⟩
      cases batch with
      | nil => exact absurd hr (List.not_mem_nil r)
      | cons x xs => rfl
    simp [load_data_bulk, hne, hm]

theorem fact_loader_atomicity_witness :
    load_data_bulk [recEx] [] = ([recEx], none) ∧
    (load_data_bulk [recEx] [recEx]).1 = [recEx] ∧
    ((load_data_bulk [recEx] [recEx]).2).isSome = true :=
  ⟨(fact_loader_atomicity [recEx] []).1,
   ((fact_loader_atomicity [recEx] [recEx]).2
      ⟨recEx, List.mem_cons_self recEx [], recEx, List.mem_cons_self recEx [],
       1, rfl, rfl⟩).1,
   ((fact_loader_atomicity [recEx] [recEx]).2
      ⟨recEx, List.mem_cons_self recEx [], recEx, List.mem_cons_self recEx [],
       1, rfl, rfl⟩).2⟩

/-- C5 counterexample: it is not the case that every column other than the
identifier is nullable — case_number (and likewise date, arrest, domestic)
is declared without Optional in models.py and is NOT NULL. -/
theorem crime_schema_nullability_counterexample :
    ¬ (∀ c ∈ crime_records_columns, c.name ≠ kId → c.nullable = true) := by
  decide

/-- C5 amended: in the persisted crime_records schema the identifier is
the one primary key column (unique and required), and the NOT NULL columns
are exactly the identifier, the case number, the incident timestamp, and
the two boolean flags; every remaining column may be null. -/
theorem crime_schema_nullability :
    ((crime_records_columns.filter (fun c => c.isPrimaryKey)).map (fun c => c.name)
      = [kId]) ∧
    (∀ c ∈ crime_records_columns, c.isPrimaryKey = true → c.nullable = false) ∧
    (∀ c ∈ crime_records_columns,
      c.nullable = false ↔ c.name ∈ [kId, kCaseNumber, kDate, kArrest, kDomestic]) := by
  decide

def yesLiteral : String := "yes"

/-- A remote whose single row carries a non-boolean arrest cell, making the
cleaning step raise. -/
def cleanFailRemote : Remote := [(backfillStart, [(kArrest, Raw.str yesLiteral)])]

/-- C8: at this input the cleaning step raises, yet run_backfill does not
re-raise that error: its except clause only logs, and the run instead dies
on the unbound clean_df local. The daily orchestrator and every other
handler re-raise, and the spec's propagation policy says this one should
too — the missing raise is a slip in run_backfill.py. -/
theorem backfill_swallows_cleaning_error :
    clean_data (fetch_crime_data cleanFailRemote backfillStart backfillLimit)
      = Except.error boolCastErrorMsg ∧
    run_backfill [] cleanFailRemote
      = ⟨[], some JobError.unboundLocalError, [⟨backfillStart, backfillLimit⟩]⟩ := by
  exact ⟨rfl, rfl⟩

def oneStr : String := "1"
def zeroZeroOneStr : String := "001"
def beatRawStr : String := "123.0"
def beatNormStr : String := "123"

/-- C9: Dimension key normalization. A district code is rendered as text,
stripped of any trailing fractional notation, and zero-padded to width
three, so the code 1 becomes 001; a beat code is stripped without padding,
so 123.0 becomes 123. The stripped code never retains a dot, the padded
district code always has width at least three, and the two branches are
exactly what the reconciler applies to the dim_districts and dim_beats
tables. -/
theorem dimension_key_normalization :
    normalizeDistrictCode (Raw.str oneStr) = Raw.str zeroZeroOneStr ∧
    normalizeBeatCode (Raw.str beatRawStr) = Raw.str beatNormStr ∧
    (∀ v, normalizeDistrictCode v = Raw.str (zfill 3 (splitDotHead (pyStr v)))) ∧
    (∀ v, normalizeBeatCode v = Raw.str (splitDotHead (pyStr v))) ∧
    (∀ s, ∀ c ∈ (splitDotHead s).data, c ≠ '.') ∧
    (∀ s, 3 ≤ (zfill 3 s).length) ∧
    (∀ rows, applyNormalization tnDistricts rows = rows.map normalizeDistrictRow) ∧
    (∀ rows, applyNormalization tnBeats rows = rows.map normalizeBeatRow) := by
  refine ⟨rfl, rfl, fun v => rfl, fun v => rfl, ?_, ?_, fun rows => rfl, fun rows => rfl⟩
  · intro s c hc
    simpa using List.mem_takeWhile_imp hc
  · intro s
    simp only [zfill]
    split
    · simp [padZeros, String.length]
    · split
      · simp [padZeros, String.length]
        omega
      · simp [padZeros, String.length]
        omega

/-- Every row surviving the first-occurrence scan came from the input. -/
lemma dedupByKeyAux_subset (pk : String) :
    ∀ (l : List DimRow) (seen : List Raw) (r : DimRow),
      r ∈ dedupByKeyAux pk seen l → r ∈ l := by
  intro l
  induction l with
  | nil => intro seen r h; simp [dedupByKeyAux] at h
  | cons x xs ih =>
    intro seen r h
    simp only [dedupByKeyAux] at h
    by_cases hk : lookupField x pk ∈ seen
    · simp only [if_pos hk] at h
      exact List.mem_cons_of_mem _ (ih seen r h)
    · simp only [if_neg hk] at h
      rcases List.mem_cons.mp h with h1 | h1
      · exact h1 ▸ List.mem_cons_self _ _
      · exact List.mem_cons_of_mem _ (ih _ r h1)

lemma coerceIsActive_eq (v : Raw) :
    coerceIsActive v = Raw.bool (toLowerStr (pyStr v) == trueLiteral) := rfl

/-- After projection onto a target column set containing is_active, the
boolean coercion leaves the is_active cell holding a genuine boolean. -/
lemma isActive_present :
    ∀ (targets : List String) (x : DimRow), kIsActive ∈ targets →
      ∃ b, lookupField (coerceIsActiveRow (projectColumns targets x)) kIsActive
        = Raw.bool b := by
  intro targets
  induction targets with
  | nil => intro x h; exact absurd h (List.not_mem_nil _)
  | cons t ts ih =>
    intro x h
    by_cases ht : t = kIsActive
    · subst ht
      refine ⟨toLowerStr (pyStr (lookupField x kIsActive)) == trueLiteral, ?_⟩
      simp [projectColumns, coerceIsActiveRow, lookupField, coerceIsActive]
    · have h2 : kIsActive ∈ ts := by
        rcases List.mem_cons.mp h with h1 | h1
        · exact absurd h1.symm ht
        · exact h1
      obtain ⟨b, hb⟩ := ih x h2
      refine ⟨b, ?_⟩
      simpa [projectColumns, coerceIsActiveRow, lookupField, ht] using hb

/-- C10: in dimension reconciliation the boolean-like coercion maps every
cell whose lower-cased text form is not exactly the literal true — null
cells included — to false and every other cell to true, so it never yields
null; and every row the IUCR pipeline loads carries a genuine boolean in
is_active, including rows whose is_active cell was synthesized as null. -/
theorem dimension_is_active_coercion :
    coerceIsActive Raw.null = Raw.bool false ∧
    (∀ v, coerceIsActive v = Raw.bool true ∨ coerceIsActive v = Raw.bool false) ∧
    (∀ v, coerceIsActive v = Raw.bool true ↔ toLowerStr (pyStr v) = trueLiteral) ∧
    (∀ fetched, ∀ r ∈ transformDimension iucrConfig fetched,
      ∃ b, lookupField r kIsActive = Raw.bool b) := by
  refine ⟨rfl, ?_, ?_, ?_⟩
  · intro v
    cases h : (toLowerStr (pyStr v) == trueLiteral)
    · right; rw [coerceIsActive_eq, h]
    · left; rw [coerceIsActive_eq, h]
  · intro v
    rw [coerceIsActive_eq]
    constructor
    · intro h
      have hb : (toLowerStr (pyStr v) == trueLiteral) = true := by
        simpa using h
      exact eq_of_beq hb
    · intro h
      rw [h]
      simp
  · intro fetched r hr
    have h1 : ∀ rows, applyNormalization tnIucr rows = rows := fun rows => rfl
    have h2 : ∀ rows,
        applyIsActive (iucrConfig.colMapping.map (fun p => p.2)) rows
          = rows.map coerceIsActiveRow := fun rows => rfl
    simp only [transformDimension, h1, h2] at hr
    obtain ⟨r0, hr0, hr0e⟩ := List.mem_map.mp hr
    have hsub := dedupByKeyAux_subset iucrConfig.pk _ [] r0 hr0
    obtain ⟨x, _, hx⟩ := List.mem_map.mp hsub
    subst hr0e
    rw [← hx]
    exact isActive_present _ x (by decide)

/-- The IUCR row the pipeline produces from a fetched row carrying only the
code column. -/
def iucrRowEx : DimRow :=
  [(kId, Raw.str oneStr), (kPrimaryDesc, Raw.null), (kSecondaryDesc, Raw.null),
   (kIndexCode, Raw.null), (kIsActive, Raw.bool false)]

theorem dimension_is_active_coercion_witness :
    ∃ b, lookupField iucrRowEx kIsActive = Raw.bool b :=
  dimension_is_active_coercion.2.2.2 [[(kIucrKey, Raw.str oneStr)]] iucrRowEx
    (by decide)

/-- If any configured table's fetch fails, the whole reconciliation loop
ends in the rollback branch: the committed state is untouched and the run
reports the failure. -/
lemma goTables_error_rollback
    (fetch : String → Except String (List DimRow)) :
    ∀ (cfgs : List DimConfig) (committed pending : DimDB),
      (∃ cfg ∈ cfgs, ∃ m, fetch cfg.datasetId = Except.error m) →
      (goTables committed pending fetch cfgs).1 = committed ∧
      ((goTables committed pending fetch cfgs).2).isSome = true := by
  intro cfgs
  induction cfgs with
  | nil =>
    intro committed pending h
    rcases h with ⟨cfg, hc, _⟩
    exact absurd hc (List.not_mem_nil cfg)
  | cons c rest ih =>
    intro committed pending h
    cases hf : fetch c.datasetId with
    | error e => simp [goTables, hf]
    | ok fetched =>
      rcases h with ⟨cfg, hc, m, hm⟩
      have hcr : cfg ∈ rest := by
        rcases List.mem_cons.mp hc with h1 | h1
        · rw [h1, hf] at hm; exact absurd hm (by simp)
        · exact h1
      have := ih committed (fetch_and_load_dimension pending c fetched)
        ⟨cfg, hcr, m, hm⟩
      simpa [goTables, hf] using this

/-- C6: Dimension reconciliation whole-run atomicity. The run works in one
session committed only after every configured table succeeded; if any
configured table's fetch fails, the run reports a failure and the
committed state equals the initial state for every table — no state is
observable with some tables replaced and others not. -/
theorem dimension_run_atomicity (db : DimDB)
    (fetch : String → Except String (List DimRow))
    (h : ∃ cfg ∈ DIMENSION_CONFIG, ∃ m, fetch cfg.datasetId = Except.error m) :
    (run_dimensions db fetch).1 = db ∧
    ((run_dimensions db fetch).2).isSome = true :=
  goTables_error_rollback fetch DIMENSION_CONFIG db db h

def emptyDimDB : DimDB := fun _ => []

def failMsgEx : String := "HTTP 503"

/-- A fetch collaborator that succeeds for every dataset except the beats
dataset, which fails. -/
def failingFetchEx : String → Except String (List DimRow) :=
  fun d => if d = dsBeats then Except.error failMsgEx
    else Except.ok [[(kIucrKey, Raw.str oneStr)]]

theorem dimension_run_atomicity_witness :
    (run_dimensions emptyDimDB failingFetchEx).1 = emptyDimDB ∧
    ((run_dimensions emptyDimDB failingFetchEx).2).isSome = true :=
  dimension_run_atomicity emptyDimDB failingFetchEx
    ⟨beatConfig, by decide, failMsgEx, rfl⟩

/-- Rows surviving the scan have keys outside the seen set, and their keys
are pairwise distinct. -/
lemma dedupByKeyAux_keys_nodup (pk : String) :
    ∀ (l : List DimRow) (seen : List Raw),
      (∀ r ∈ dedupByKeyAux pk seen l, lookupField r pk ∉ seen) ∧
      ((dedupByKeyAux pk seen l).map (fun r => lookupField r pk)).Nodup := by
  intro l
  induction l with
  | nil =>
    intro seen
    constructor
    · intro r h; simp [dedupByKeyAux] at h
    · simp [dedupByKeyAux]
  | cons x xs ih =>
    intro seen
    by_cases hk : lookupField x pk ∈ seen
    · constructor
      · intro r h
        simp only [dedupByKeyAux, if_pos hk] at h
        exact (ih seen).1 r h
      · simp only [dedupByKeyAux, if_pos hk]
        exact (ih seen).2
    · constructor
      · intro r h
        simp only [dedupByKeyAux, if_neg hk] at h
        rcases List.mem_cons.mp h with h1 | h1
        · rw [h1]; exact hk
        · intro hs
          exact (ih (lookupField x pk :: seen)).1 r h1 (List.mem_cons_of_mem _ hs)
      · simp only [dedupByKeyAux, if_neg hk, List.map_cons, List.nodup_cons]
        constructor
        · intro hmem
          obtain ⟨r2, hr2, he⟩ := List.mem_map.mp hmem
          exact (ih (lookupField x pk :: seen)).1 r2 hr2 (he ▸ List.mem_cons_self _ _)
        · exact (ih _).2

/-- Every surviving row is the first row of the input sharing its key. -/
lemma dedupByKeyAux_first (pk : String) :
    ∀ (l : List DimRow) (seen : List Raw) (r : DimRow),
      r ∈ dedupByKeyAux pk seen l →
      lookupField r pk ∉ seen ∧
      l.find? (fun r2 => lookupField r2 pk == lookupField r pk) = some r := by
  intro l
  induction l with
  | nil => intro seen r h; simp [dedupByKeyAux] at h
  | cons x xs ih =>
    intro seen r h
    by_cases hk : lookupField x pk ∈ seen
    · simp only [dedupByKeyAux, if_pos hk] at h
      obtain ⟨hns, hfind⟩ := ih seen r h
      have hne : lookupField x pk ≠ lookupField r pk := by
        intro he; exact hns (he ▸ hk)
      have hpx : (lookupField x pk == lookupField r pk) = false := by
        simpa using hne
      exact ⟨hns, by simp only [List.find?, hpx]; exact hfind⟩
    · simp only [dedupByKeyAux, if_neg hk] at h
      rcases List.mem_cons.mp h with h1 | h1
      · subst h1
        exact ⟨hk, by rw [List.find?_cons_of_pos _ (by simp)]⟩
      · obtain ⟨hns, hfind⟩ := ih (lookupField x pk :: seen) r h1
        have hne : lookupField x pk ≠ lookupField r pk := by
          intro he; exact hns (he ▸ List.mem_cons_self _ _)
        have hpx : (lookupField x pk == lookupField r pk) = false := by
          simpa using hne
        refine ⟨fun hs => hns (List.mem_cons_of_mem _ hs), ?_⟩
        simp only [List.find?, hpx]
        exact hfind

/-- Every input key either was already seen or still occurs among the
survivors. -/
lemma dedupByKeyAux_complete (pk : String) :
    ∀ (l : List DimRow) (seen : List Raw) (r : DimRow), r ∈ l →
      lookupField r pk ∈ seen ∨
      ∃ r2 ∈ dedupByKeyAux pk seen l, lookupField r2 pk = lookupField r pk := by
  intro l
  induction l with
  | nil => intro seen r h; exact absurd h (List.not_mem_nil r)
  | cons x xs ih =>
    intro seen r h
    by_cases hk : lookupField x pk ∈ seen
    · rcases List.mem_cons.mp h with h1 | h1
      · left; rw [h1]; exact hk
      · rcases ih seen r h1 with h2 | ⟨r2, hr2, he⟩
        · left; exact h2
        · right
          refine ⟨r2, ?_, he⟩
          simp only [dedupByKeyAux, if_pos hk]
          exact hr2
    · rcases List.mem_cons.mp h with h1 | h1
      · right
        refine ⟨x, ?_, by rw [h1]⟩
        simp only [dedupByKeyAux, if_neg hk]
        exact List.mem_cons_self _ _
      · rcases ih (lookupField x pk :: seen) r h1 with h2 | ⟨r2, hr2, he⟩
        · rcases List.mem_cons.mp h2 with h3 | h3
          · right
            refine ⟨x, ?_, h3.symm⟩
            simp only [dedupByKeyAux, if_neg hk]
            exact List.mem_cons_self _ _
          · left; exact h3
        · right
          refine ⟨r2, ?_, he⟩
          simp only [dedupByKeyAux, if_neg hk]
          exact List.mem_cons_of_mem _ hr2

/-- A successful loop leaves tables no configured entry names untouched. -/
lemma goTables_untouched (fetch : String → Except String (List DimRow)) :
    ∀ (cfgs : List DimConfig) (committed pending final : DimDB),
      goTables committed pending fetch cfgs = (final, none) →
      ∀ t, (∀ cfg ∈ cfgs, cfg.tableName ≠ t) → final t = pending t := by
  intro cfgs
  induction cfgs with
  | nil =>
    intro committed pending final h t ht
    simp only [goTables, Prod.mk.injEq] at h
    rw [← h.1]
  | cons c rest ih =>
    intro committed pending final h t ht
    cases hf : fetch c.datasetId with
    | error e =>
      simp only [goTables, hf, Prod.mk.injEq] at h
      exact absurd h.2 (by simp)
    | ok fetched =>
      simp only [goTables, hf] at h
      have h2 := ih committed (fetch_and_load_dimension pending c fetched) final h t
        (fun cfg hc => ht cfg (List.mem_cons_of_mem _ hc))
      rw [h2]
      unfold fetch_and_load_dimension
      split
      · rfl
      · unfold setTable
        exact if_neg (fun he => (ht c (List.mem_cons_self _ _)) he.symm)

/-- Re-running a successful loop from its final state reproduces that
state, provided the configured table names are pairwise distinct. -/
lemma goTables_rerun (fetch : String → Except String (List DimRow)) :
    ∀ (cfgs : List DimConfig), (cfgs.map (fun c => c.tableName)).Nodup →
      ∀ (committed pending final : DimDB),
        goTables committed pending fetch cfgs = (final, none) →
        ∀ committed2, goTables committed2 final fetch cfgs = (final, none) := by
  intro cfgs
  induction cfgs with
  | nil =>
    intro _ committed pending final h committed2
    simp only [goTables, Prod.mk.injEq] at h
    simp only [goTables, h.1]
  | cons c rest ih =>
    intro hnd committed pending final h committed2
    cases hf : fetch c.datasetId with
    | error e =>
      simp only [goTables, hf, Prod.mk.injEq] at h
      exact absurd h.2 (by simp)
    | ok fetched =>
      simp only [goTables, hf] at h
      rw [List.map_cons, List.nodup_cons] at hnd
      have hft : final c.tableName
          = (fetch_and_load_dimension pending c fetched) c.tableName := by
        refine goTables_untouched fetch rest committed _ final h c.tableName ?_
        intro cfg hc he
        exact hnd.1 (he ▸ List.mem_map_of_mem (fun c => c.tableName) hc)
      have hfal : fetch_and_load_dimension final c fetched = final := by
        unfold fetch_and_load_dimension at hft ⊢
        cases hemp : fetched.isEmpty with
        | true => simp [hemp]
        | false =>
          simp only [hemp, Bool.false_eq_true, if_false] at hft ⊢
          funext u
          unfold setTable
          by_cases hu : u = c.tableName
          · rw [if_pos hu, hu, hft]
            unfold setTable
            rw [if_pos rfl]
          · rw [if_neg hu]
      simp only [goTables, hf]
      rw [hfal]
      exact ih hnd.2 committed _ final h committed2

/-- C7: Dimension deduplication. After deduplication the primary key
values of a batch are pairwise distinct; each surviving row is precisely
the first row of the fetched batch holding its key (all later occurrences
are dropped), and every fetched key still occurs among the survivors; and
a reconciliation run that succeeded is idempotent — re-running it from the
state it produced commits exactly that state again. -/
theorem dimension_dedup_first_wins
    (pk : String) (rows : List DimRow)
    (db : DimDB) (fetch : String → Except String (List DimRow))
    (h : (run_dimensions db fetch).2 = none) :
    ((dedupByKey pk rows).map (fun r => lookupField r pk)).Nodup ∧
    (∀ r ∈ dedupByKey pk rows,
      rows.find? (fun r2 => lookupField r2 pk == lookupField r pk) = some r) ∧
    (∀ r ∈ rows, ∃ r2 ∈ dedupByKey pk rows,
      lookupField r2 pk = lookupField r pk) ∧
    run_dimensions ((run_dimensions db fetch).1) fetch
      = ((run_dimensions db fetch).1, none) := by
  refine ⟨(dedupByKeyAux_keys_nodup pk rows []).2, ?_, ?_, ?_⟩
  · intro r hr
    exact (dedupByKeyAux_first pk rows [] r hr).2
  · intro r hr
    rcases dedupByKeyAux_complete pk rows [] r hr with h2 | h2
    · exact absurd h2 (List.not_mem_nil _)
    · exact h2
  · have hpair : run_dimensions db fetch = ((run_dimensions db fetch).1, none) := by
      rcases hrun : run_dimensions db fetch with ⟨d, e⟩
      rw [hrun] at h
      simp only at h
      rw [h]
    have hnodup : (DIMENSION_CONFIG.map (fun c => c.tableName)).Nodup := by decide
    exact goTables_rerun fetch DIMENSION_CONFIG hnodup db db _ hpair _

def okFetchEx : String → Except String (List DimRow) :=
  fun _ => Except.ok [[(kId, Raw.str oneStr)], [(kId, Raw.str oneStr)]]

def dupRowsEx : List DimRow :=
  [[(kId, Raw.str oneStr)], [(kId, Raw.str oneStr)], [(kId, Raw.str beatNormStr)]]

theorem dimension_dedup_first_wins_witness :
    ((dedupByKey kId dupRowsEx).map (fun r => lookupField r kId)).Nodup ∧
    run_dimensions ((run_dimensions emptyDimDB okFetchEx).1) okFetchEx
      = ((run_dimensions emptyDimDB okFetchEx).1, none) :=
  ⟨(dimension_dedup_first_wins kId dupRowsEx emptyDimDB okFetchEx (by rfl)).1,
   (dimension_dedup_first_wins kId dupRowsEx emptyDimDB okFetchEx (by rfl)).2.2.2⟩

/-- A cell the nullable-boolean cast accepts: a bool or a null. -/
def boolLike (v : Raw) : Bool :=
  match v with
  | Raw.null => true
  | Raw.bool _ => true
  | _ => false

/-- The boolean a bool-like cell carries, null staying null. -/
def boolVal (v : Raw) : Option Bool :=
  match v with
  | Raw.bool b => some b
  | _ => none

/-- A cell the safe integer cast accepts: one whose numeric coercion is
either null or an integral value inside the target range. -/
def intCastSafe (lo hi : Int) (v : Raw) : Bool :=
  match to_numeric v with
  | none => true
  | some q => decide (q.den = 1 ∧ lo ≤ q.num ∧ q.num ≤ hi)

lemma astype_boolean_of_boolLike (v : Raw) (h : boolLike v = true) :
    astype_boolean v = Except.ok (boolVal v) := by
  cases v <;> simp_all [boolLike, astype_boolean, boolVal]

lemma astype_int_of_safe (lo hi : Int) (v : Raw)
    (h : intCastSafe lo hi v = true) :
    ∃ o, astype_int lo hi (to_numeric v) = Except.ok o := by
  unfold intCastSafe at h
  cases hq : to_numeric v with
  | none => exact ⟨none, by simp [astype_int, hq]⟩
  | some q =>
    rw [hq] at h
    refine ⟨some q.num, ?_⟩
    simp [astype_int, of_decide_eq_true h]

lemma except_bind_ok {ε α β : Type} (a : α) (f : α → Except ε β) :
    (Except.ok a : Except ε α) >>= f = f a := rfl

def threeFiveStr : String := "3.5"

/-- C4 counterexample: coercion does raise on a bad field value. A row
whose arrest cell is the text yes makes the nullable-boolean cast raise
instead of producing null, and a row whose year cell is the numeric text
3.5 makes the safe integer cast raise instead of truncating. -/
theorem clean_data_raises_counterexample :
    clean_data [[(kArrest, Raw.str yesLiteral)]] = Except.error boolCastErrorMsg ∧
    clean_data [[(kYear, Raw.str threeFiveStr)]] = Except.error intCastErrorMsg :=
  ⟨rfl, rfl⟩

/-- C4 amended: clean_data lower-cases all field names first and never
raises on timestamp, coordinate, or text cells — unparseable or missing
values of those become explicit nulls — and an unparseable administrative
or identifier cell likewise becomes null; but a boolean-flag cell that is
neither a boolean nor missing, or an administrative or identifier numeric
value that is non-integral or out of range, causes the cast, and hence
coercion, to raise. Under the casts' acceptance conditions the whole row
coerces without raising, with every typed field given by its per-field
coercion. -/
theorem clean_data_coercion (row : RawRow)
    (harr : boolLike (lookupLower row kArrest) = true)
    (hdom : boolLike (lookupLower row kDomestic) = true)
    (hyear : intCastSafe int16Lo int16Hi (lookupLower row kYear) = true)
    (hward : intCastSafe int16Lo int16Hi (lookupLower row kWard) = true)
    (hid : intCastSafe int64Lo int64Hi (lookupLower row kId) = true) :
    ∃ rec, clean_row row = Except.ok rec ∧
      rec.date = to_datetime (lookupLower row kDate) ∧
      rec.updated_on = to_datetime (lookupLower row kUpdatedOn) ∧
      rec.latitude = to_numeric (lookupLower row kLatitude) ∧
      rec.longitude = to_numeric (lookupLower row kLongitude) ∧
      rec.x_coordinate = to_numeric (lookupLower row kXCoordinate) ∧
      rec.y_coordinate = to_numeric (lookupLower row kYCoordinate) ∧
      astype_int int16Lo int16Hi (to_numeric (lookupLower row kYear))
        = Except.ok rec.year ∧
      astype_int int16Lo int16Hi (to_numeric (lookupLower row kWard))
        = Except.ok rec.ward ∧
      astype_int int64Lo int64Hi (to_numeric (lookupLower row kId))
        = Except.ok rec.id ∧
      astype_boolean (lookupLower row kArrest) = Except.ok rec.arrest ∧
      astype_boolean (lookupLower row kDomestic) = Except.ok rec.domestic ∧
      rec.case_number = astype_string (lookupLower row kCaseNumber) ∧
      rec.block = astype_string (lookupLower row kBlock) := by
  obtain ⟨oy, hy⟩ := astype_int_of_safe int16Lo int16Hi _ hyear
  obtain ⟨ow, hw⟩ := astype_int_of_safe int16Lo int16Hi _ hward
  obtain ⟨oi, hi⟩ := astype_int_of_safe int64Lo int64Hi _ hid
  have ha := astype_boolean_of_boolLike _ harr
  have hd := astype_boolean_of_boolLike _ hdom
  have hrow : clean_row row = Except.ok
      { id := oi
        case_number := astype_string (lookupLower row kCaseNumber)
        date := to_datetime (lookupLower row kDate)
        updated_on := to_datetime (lookupLower row kUpdatedOn)
        block := astype_string (lookupLower row kBlock)
        iucr := astype_string (lookupLower row kIucr)
        primary_type := astype_string (lookupLower row kPrimaryType)
        description := astype_string (lookupLower row kDescription)
        location_description := astype_string (lookupLower row kLocationDescription)
        arrest := boolVal (lookupLower row kArrest)
        domestic := boolVal (lookupLower row kDomestic)
        beat := astype_string (lookupLower row kBeat)
        district := astype_string (lookupLower row kDistrict)
        ward := ow
        community_area := astype_string (lookupLower row kCommunityArea)
        fbi_code := astype_string (lookupLower row kFbiCode)
        x_coordinate := to_numeric (lookupLower row kXCoordinate)
        y_coordinate := to_numeric (lookupLower row kYCoordinate)
        latitude := to_numeric (lookupLower row kLatitude)
        longitude := to_numeric (lookupLower row kLongitude)
        year := oy } := by
    simp only [clean_row, hy, hw, hi, ha, hd, except_bind_ok]
  exact ⟨_, hrow, rfl, rfl, rfl, rfl, rfl, rfl, hy, hw, hi, ha, hd, rfl, rfl⟩

def notDateStr : String := "NOT A DATE"

/-- A raw row whose timestamp cell is unparseable and whose boolean cells
are bool-like. -/
def rowC4Ex : RawRow :=
  [(kDate, Raw.str notDateStr), (kArrest, Raw.bool true), (kDomestic, Raw.null)]

theorem clean_data_coercion_witness :
    ∃ rec, clean_row rowC4Ex = Except.ok rec ∧ rec.date = none := by
  obtain ⟨rec, hok, hdate, _⟩ := clean_data_coercion rowC4Ex rfl rfl rfl rfl rfl
  exact ⟨rec, hok, hdate.trans rfl⟩
